import Mathlib

/-!
Shallow embedding of the lvmdbusd daemon's `background.py` and `utils.py`
(move/merge progress handling, object-path allocation, LV classification,
command-line `--config` handling, and the main-thread runner), with theorems
checking the natural-language specification against the code.

Python strings are modelled as Lean `String`/`List Char`.  Python floats are
modelled as IEEE-754 binary64 values: a finite double is the exact rational
`mant * 2 ^ exp`, and `float()`, `round(x, 1)` and `int()` follow CPython —
`float()` parses the full decimal grammar (optional sign, digit parts with
underscore separators, optional point, optional exponent, and the
`inf`/`infinity`/`nan` keywords) and correctly rounds the decimal value to the
nearest double (ties to even, overflow to infinity); `round(x, 1)` rounds the
exact binary value to the nearest multiple of 1/10 (ties to even) and returns
the double nearest to that decimal; `int()` truncates toward zero, raising
OverflowError on infinities and ValueError on nan.
-/

deriving instance DecidableEq for Except

namespace LvmDbus

/-- Numeric value of a list of decimal digit characters, most significant
first (the value `int`/`float` give those digits). -/
def digitsVal (l : List Char) : Nat :=
  l.foldl (fun a c => 10 * a + (c.toNat - '0'.toNat)) 0

/-- Python `str.strip()`: remove leading and trailing whitespace. -/
def trimChars (l : List Char) : List Char :=
  ((l.dropWhile Char.isWhitespace).reverse.dropWhile Char.isWhitespace).reverse

/-- Python `str.split(sep)` for a one-character separator: the groups between
occurrences of the separator (always one more group than separators). -/
def splitChar (c : Char) : List Char → List (List Char)
  | [] => [[]]
  | x :: xs =>
    match splitChar c xs with
    | [] => [[]]
    | g :: gs => if x = c then [] :: g :: gs else (x :: g) :: gs

/-- A CPython float: an IEEE-754 binary64 value.  A finite double is the
exact rational `mant * 2 ^ exp`; infinities and nan are the non-finite
values. -/
inductive PyFloat
  | finite (mant : Int) (exp : Int)
  | inf
  | neginf
  | nan
  deriving DecidableEq, Repr

/-- The Python exceptions arising on the progress-callback path. -/
inductive PyExc
  | valueError
  | overflowError
  deriving DecidableEq, Repr

/-- Number of binary digits of `n` (0 for 0); the first argument is
structural fuel (`n` itself suffices). -/
def bitLenAux : Nat → Nat → Nat
  | 0, _ => 0
  | fuel + 1, n => if n = 0 then 0 else bitLenAux fuel (n / 2) + 1

/-- Number of binary digits of `n`: `n` lies in `[2 ^ (bitLen n - 1), 2 ^ bitLen n)`
for positive `n`. -/
def bitLen (n : Nat) : Nat := bitLenAux n n

/-- `2 ^ k ≤ a / b` for positive naturals, by cross-multiplication. -/
def pow2LE (k : Int) (a b : Nat) : Bool :=
  if 0 ≤ k then b * 2 ^ k.toNat ≤ a else b ≤ a * 2 ^ (-k).toNat

/-- Round `A / B` (with `0 < B`) to the nearest natural, ties to even. -/
def roundHalfEvenNat (A B : Nat) : Nat :=
  let n := A / B
  let r := A % B
  if 2 * r < B then n
  else if B < 2 * r then n + 1
  else if n % 2 = 0 then n else n + 1

/-- Round `m / d` (with `0 < d`) to the nearest integer, ties to even —
Python's rounding mode. -/
def roundHalfEvenInt (m : Int) (d : Nat) : Int :=
  let f := Int.fdiv m d
  let rem := m - f * d
  if 2 * rem < (d : Int) then f
  else if (d : Int) < 2 * rem then f + 1
  else if f % 2 = 0 then f else f + 1

/-- The binary64 double nearest to `±(a / b)` (round to nearest, ties to
even, gradual underflow, overflow to infinity) — the value a CPython float
conversion produces. -/
def nearestFloat (neg : Bool) (a b : Nat) : PyFloat :=
  if a = 0 then PyFloat.finite 0 0
  else
    let e0 : Int := (bitLen a : Int) - (bitLen b : Int)
    let e : Int := if pow2LE e0 a b then e0 else e0 - 1
    let q : Int := if e - 52 < -1074 then -1074 else e - 52
    let m2 : Nat :=
      if 0 ≤ q then roundHalfEvenNat a (b * 2 ^ q.toNat)
      else roundHalfEvenNat (a * 2 ^ (-q).toNat) b
    let m3 : Nat := if m2 = 2 ^ 53 then 2 ^ 52 else m2
    let q2 : Int := if m2 = 2 ^ 53 then q + 1 else q
    if 971 < q2 then (if neg then PyFloat.neginf else PyFloat.inf)
    else if m3 = 0 then PyFloat.finite 0 0
    else PyFloat.finite (if neg then -(m3 : Int) else (m3 : Int)) q2

/-- The double nearest to `±(m * 10 ^ dexp)`: a parsed decimal numeral's
float value. -/
def decToFloat (neg : Bool) (m : Nat) (dexp : Int) : PyFloat :=
  if 0 ≤ dexp then nearestFloat neg (m * 10 ^ dexp.toNat) 1
  else nearestFloat neg m (10 ^ (-dexp).toNat)

/-- A Python digit part after its leading digit: digits with single
underscores allowed only between digits; returns the digits read and the
unconsumed rest (stopping before an underscore not followed by a digit). -/
def takeDigitPartAux : List Char → List Char × List Char
  | '_' :: c :: rest =>
    if c.isDigit then
      let p := takeDigitPartAux rest
      (c :: p.1, p.2)
    else ([], '_' :: c :: rest)
  | c :: rest =>
    if c.isDigit then
      let p := takeDigitPartAux rest
      (c :: p.1, p.2)
    else ([], c :: rest)
  | [] => ([], [])

/-- A Python digit part: `digit (["_"] digit)*`; `none` when the input does
not start with a digit. -/
def takeDigitPart (s : List Char) : Option (List Char × List Char) :=
  match s with
  | c :: _ => if c.isDigit then some (takeDigitPartAux s) else none
  | [] => none

/-- The mantissa of the `float()` grammar: `[digitpart] ["." [digitpart]]`
with at least one digit; returns (integer digits, fraction digits, rest). -/
def takeMantissa (s : List Char) : Option (List Char × List Char × List Char) :=
  let p1 := match takeDigitPart s with
    | some q => q
    | none => ([], s)
  match p1.2 with
  | '.' :: r2 =>
    let p2 := match takeDigitPart r2 with
      | some q => q
      | none => ([], r2)
    if p1.1.isEmpty && p2.1.isEmpty then none else some (p1.1, p2.1, p2.2)
  | _ => if p1.1.isEmpty then none else some (p1.1, [], p1.2)

/-- Case-insensitive keyword match. -/
def lowerEq (s kw : List Char) : Bool :=
  s.map Char.toLower == kw

/-- `float()` after the optional sign: the `inf`/`infinity`/`nan` keywords,
or a decimal numeral with optional fraction and optional exponent, fully
consumed; `none` is Python's ValueError. -/
def parsePyFloatAux (s : List Char) (neg : Bool) : Option PyFloat :=
  if lowerEq s "inf".data || lowerEq s "infinity".data then
    some (if neg then PyFloat.neginf else PyFloat.inf)
  else if lowerEq s "nan".data then some PyFloat.nan
  else
    match takeMantissa s with
    | none => none
    | some (ip, fp, r) =>
      match r with
      | [] => some (decToFloat neg (digitsVal (ip ++ fp)) (-(fp.length : Int)))
      | c :: r2 =>
        if c = 'e' ∨ c = 'E' then
          let p : Bool × List Char :=
            match r2 with
            | '-' :: t => (true, t)
            | '+' :: t => (false, t)
            | t => (false, t)
          match takeDigitPart p.2 with
          | some (eds, []) =>
            some (decToFloat neg (digitsVal (ip ++ fp))
              ((if p.1 then -(digitsVal eds : Int) else (digitsVal eds : Int)) -
                (fp.length : Int)))
          | _ => none
        else none

/-- Python `float(s)`: strip whitespace, optional sign, then the numeral or
keyword; `none` is the ValueError the callback catches. -/
def parsePyFloat (s : List Char) : Option PyFloat :=
  match trimChars s with
  | '-' :: rest => parsePyFloatAux rest true
  | '+' :: rest => parsePyFloatAux rest false
  | t => parsePyFloatAux t false

/-- Python `round(x, 1)`: the exact binary value rounded to the nearest
multiple of 1/10 (ties to even), re-rounded to the nearest double —
CPython's correctly-rounded behaviour; infinities and nan are returned
unchanged. -/
def pyRound1 : PyFloat → PyFloat
  | PyFloat.finite mant exp =>
    let r1 : Int :=
      if 0 ≤ exp then mant * 10 * 2 ^ exp.toNat
      else roundHalfEvenInt (mant * 10) (2 ^ (-exp).toNat)
    nearestFloat (decide (r1 < 0)) r1.natAbs 10
  | x => x

/-- Python `int(x)`: truncation toward zero; OverflowError on infinities,
ValueError on nan. -/
def pyInt : PyFloat → Except PyExc Int
  | PyFloat.finite mant exp =>
    Except.ok (if 0 ≤ exp then mant * 2 ^ exp.toNat else Int.tdiv mant (2 ^ (-exp).toNat))
  | PyFloat.inf => Except.error PyExc.overflowError
  | PyFloat.neginf => Except.error PyExc.overflowError
  | PyFloat.nan => Except.error PyExc.valueError

/-- Modelled from the spec: the Job handle for a long-running operation
(`job_state`); it carries the bus-visible `Percent` value, and we count the
asynchronous full-state reloads the callback schedules on the worker queue. -/
structure JobState where
  percent : Int
  scheduled : Nat
  deriving DecidableEq, Repr

/-- The third `:`-separated field of a progress line — the `percentage` slot
of `(device, ignore, percentage) = line_str.split(':')`. -/
def percentField (line : String) : List Char :=
  (splitChar ':' line.data).getD 2 []

/-- `float(percentage.strip()[:-1])` of `_move_callback`: strip the field,
drop its final character, parse the rest as a float. -/
def pctValue (line : String) : Option PyFloat :=
  parsePyFloat ((trimChars (percentField line)).dropLast)

/-- `_move_callback(job_state, line_str)` of background.py: on a line with
exactly two `:` the percentage field is parsed and `Percent` is set to
`int(round(float(...), 1))` and one reload is scheduled; a `ValueError`
(from `float()` on an unparsable field, or from `int()` on nan) is caught
and logged; an `OverflowError` (from `int()` on an infinity) is NOT caught
and propagates out of the callback; other lines are ignored.  Returns the
new job state and the log messages emitted, or the uncaught exception. -/
def move_callback (job : JobState) (line : String) :
    Except PyExc (JobState × List String) :=
  if line.data.count ':' = 2 then
    match pctValue line with
    | none =>
      Except.ok (job, ["Trying to parse percentage which failed for " ++ line])
    | some x =>
      match pyInt (pyRound1 x) with
      | Except.ok n =>
        Except.ok ({ percent := n, scheduled := job.scheduled + 1 }, [])
      | Except.error PyExc.valueError =>
        Except.ok (job, ["Trying to parse percentage which failed for " ++ line])
      | Except.error PyExc.overflowError => Except.error PyExc.overflowError
  else Except.ok (job, [])

/-- Modelled from the spec: the effect of one delivered line on the job
state inside `call_lvm`'s streaming loop (cmdhandler.py, not under src/) —
"every complete combined-output line is delivered" to the callback and the
runner "always waits for process exit", appending one execution record
"regardless of outcome"; a fault of one invocation is thus confined to that
invocation, the job keeping the state the callback last committed. -/
def callbackStep (job : JobState) (line : String) : JobState :=
  match move_callback job line with
  | Except.ok (j, _) => j
  | Except.error _ => job

/-- A D-Bus fault: the originating interface name and the message. -/
structure DBusError where
  iface : String
  msg : String
  deriving DecidableEq, Repr

/-- Modelled from the spec: `LvmExecutionMeta` of cmdhandler.py — start time,
end time, exit code, argument vector, captured stdout and stderr; constructed
before execution and completed with the outcome afterwards. -/
structure LvmExecutionMeta where
  start : Nat
  ended : Nat
  ec : Int
  cmd : List String
  stdout : String
  stderr : String
  deriving DecidableEq, Repr

/-- Modelled from the spec: the behaviour of one `call_lvm` execution of the
external tool — its exit code, captured stdout and stderr, and the output
lines it streams to the progress callback before exiting. -/
structure LvmCallResult where
  ec : Int
  stdout : String
  stderr : String
  lines : List String
  deriving DecidableEq, Repr

/-- The daemon-global state the move/merge path touches: the Flight Recorder
contents, how many full `cfg.load()` reloads ran, how many external processes
were spawned, and an abstract clock for `time.time()`. -/
structure DaemonState where
  flightrecorder : List LvmExecutionMeta
  loads : Nat
  spawned : Nat
  now : Nat
  deriving DecidableEq, Repr

/-- The completed execution record `_move_merge` leaves in the Flight
Recorder: created at the start time, completed with the command's exit code
and captured output. -/
def completedMeta (st : DaemonState) (command : List String)
    (world : LvmCallResult) : LvmExecutionMeta :=
  { start := st.now, ended := st.now + 1, ec := world.ec,
    cmd := command, stdout := world.stdout, stderr := world.stderr }

/-- Deliver each output line to `_move_callback` in order (the `line_cb`
loop of `call_lvm`), returning the final job state. -/
def runLines (job : JobState) : List String → JobState
  | [] => job
  | l :: ls => runLines (callbackStep job l) ls

/-- `_move_merge(interface_name, command, job_state)` of background.py:
record an execution entry, run the external command streaming lines to
`_move_callback`, complete the entry with the outcome; on exit code 0 set
`Percent` to 100 and reload, otherwise raise a `DBusException` carrying the
exit code and stderr. -/
def move_merge (iface : String) (command : List String) (world : LvmCallResult)
    (job : JobState) (st : DaemonState) :
    Except DBusError String × JobState × DaemonState :=
  let job1 := runLines job world.lines
  let st1 : DaemonState :=
    { st with
      flightrecorder := st.flightrecorder ++ [completedMeta st command world],
      spawned := st.spawned + 1,
      now := st.now + 1 }
  if world.ec = 0 then
    (Except.ok "/", { job1 with percent := 100 }, { st1 with loads := st1.loads + 1 })
  else
    (Except.error
      ⟨iface, "Exit code " ++ toString world.ec ++ ", stderr = " ++ world.stderr⟩,
      job1, st1)

/-- Modelled from the spec: `cfg.om.get_object_by_path` — the bus object
graph resolves an object path to a live object; modelled as an association
list from object path to the object's `lvm_id`. -/
def get_object_by_path (om : List (String × String)) (path : String) :
    Option String :=
  match om with
  | [] => none
  | (p, v) :: rest => if p = path then some v else get_object_by_path rest path

/-- Modelled from the spec: `options_to_cli_args` of cmdhandler.py turns the
caller's option hash into CLI arguments; modelled as an already-converted
argument list. -/
def options_to_cli_args (options : List String) : List String := options

/-- `pv_range_append(cmd, device, start, end)` of utils.py. -/
def pv_range_append (cmd : List String) (device : String) (start e : Int) :
    List String :=
  if start = 0 ∧ e = 0 then cmd ++ [device]
  else if start ≠ 0 ∧ e = 0 then cmd ++ [device ++ ":" ++ toString start ++ "-"]
  else cmd ++ [device ++ ":" ++ toString start ++ "-" ++ toString e]

/-- `pv_dest_ranges(cmd, pv_dest_range_list)` of utils.py. -/
def pv_dest_ranges (cmd : List String) :
    List (String × Int × Int) → List String
  | [] => cmd
  | (d, s, e) :: rest => pv_dest_ranges (pv_range_append cmd d s e) rest

/-- `pv_move_lv_cmd` of background.py: the `pvmove` argument vector. -/
def pv_move_lv_cmd (move_options : List String) (lv_full_name : Option String)
    (pv_source : String) (pv_source_range : Int × Int)
    (pv_dest_range_list : List (String × Int × Int)) : List String :=
  let cmd := ["pvmove", "-i", "1"] ++ options_to_cli_args move_options
  let cmd :=
    match lv_full_name with
    | some n => cmd ++ ["-n", n]
    | none => cmd
  pv_dest_ranges (pv_range_append cmd pv_source pv_source_range.1 pv_source_range.2)
    pv_dest_range_list

/-- The destination-resolution loop of `move`: each destination object path
is resolved to its `lvm_id`; the first unresolved one raises
`PV Destination (...) not found`. -/
def resolve_dests (om : List (String × String)) (iface : String) :
    List (String × Int × Int) → Except DBusError (List (String × Int × Int))
  | [] => Except.ok []
  | (p, s, e) :: rest =>
    match get_object_by_path om p with
    | none => Except.error ⟨iface, "PV Destination (" ++ p ++ ") not found"⟩
    | some lvmId =>
      match resolve_dests om iface rest with
      | Except.ok l => Except.ok ((lvmId, s, e) :: l)
      | Except.error err => Except.error err

/-- `move(...)` of background.py: resolve the source PV, resolve every
destination PV, build the `pvmove` vector and hand it to `_move_merge`;
an unresolved source or destination raises before anything is executed. -/
def move (iface : String) (lv_name : Option String) (pv_src_obj : String)
    (pv_source_range : Int × Int) (pv_dests_and_ranges : List (String × Int × Int))
    (move_options : List String) (world : LvmCallResult)
    (om : List (String × String)) (job : JobState) (st : DaemonState) :
    Except DBusError String × JobState × DaemonState :=
  match get_object_by_path om pv_src_obj with
  | none =>
    (Except.error ⟨iface, "pv_src_obj (" ++ pv_src_obj ++ ") not found"⟩, job, st)
  | some srcId =>
    match resolve_dests om iface pv_dests_and_ranges with
    | Except.error e => (Except.error e, job, st)
    | Except.ok pv_dests =>
      let cmd := pv_move_lv_cmd move_options lv_name srcId pv_source_range pv_dests
      move_merge iface cmd world job st

/-- Is an `Except` outcome a raised fault? -/
def isErr : Except DBusError String → Bool
  | Except.error _ => true
  | Except.ok _ => false

/-! ### Object-path allocation (utils.py `*_obj_path_generate`) -/

/-- The entity categories with their own object-path counters. -/
inductive PathCategory
  | pv
  | vg
  | lv
  | thinPool
  | vdoPool
  | cachePool
  | hiddenLv
  | job
  deriving DecidableEq, Repr

/-- Modelled from the spec: the per-category counters of cfg.py
(`itertools.count()` each), one monotonically increasing integer per entity
category. -/
structure PathAllocState where
  counters : PathCategory → Nat

/-- Modelled from the spec: the fixed object-path roots of cfg.py, one per
entity category. -/
def prefixOf : PathCategory → String
  | PathCategory.pv => "/com/redhat/lvmdbus1/Pv"
  | PathCategory.vg => "/com/redhat/lvmdbus1/Vg"
  | PathCategory.lv => "/com/redhat/lvmdbus1/Lv"
  | PathCategory.thinPool => "/com/redhat/lvmdbus1/ThinPool"
  | PathCategory.vdoPool => "/com/redhat/lvmdbus1/VdoPool"
  | PathCategory.cachePool => "/com/redhat/lvmdbus1/CachePool"
  | PathCategory.hiddenLv => "/com/redhat/lvmdbus1/HiddenLv"
  | PathCategory.job => "/com/redhat/lvmdbus1/Job"

/-- `next()` on one category's counter. -/
def bumpCounter (st : PathAllocState) (c : PathCategory) : PathAllocState :=
  ⟨fun c2 => if c2 = c then st.counters c2 + 1 else st.counters c2⟩

/-- The shared body of the `*_obj_path_generate` functions of utils.py:
`PREFIX + "/%d" % next(counter)`. -/
def obj_path_generate (st : PathAllocState) (c : PathCategory) :
    String × PathAllocState :=
  (prefixOf c ++ "/" ++ toString (st.counters c), bumpCounter st c)

/-- `pv_obj_path_generate()` of utils.py. -/
def pv_obj_path_generate (st : PathAllocState) : String × PathAllocState :=
  obj_path_generate st PathCategory.pv

/-- `vg_obj_path_generate()` of utils.py. -/
def vg_obj_path_generate (st : PathAllocState) : String × PathAllocState :=
  obj_path_generate st PathCategory.vg

/-- `_lv_obj_path_generate()` of utils.py. -/
def lv_obj_path_generate (st : PathAllocState) : String × PathAllocState :=
  obj_path_generate st PathCategory.lv

/-- `_thin_pool_obj_path_generate()` of utils.py. -/
def thin_pool_obj_path_generate (st : PathAllocState) : String × PathAllocState :=
  obj_path_generate st PathCategory.thinPool

/-- `_vdo_pool_object_path_generate()` of utils.py. -/
def vdo_pool_object_path_generate (st : PathAllocState) : String × PathAllocState :=
  obj_path_generate st PathCategory.vdoPool

/-- `_cache_pool_obj_path_generate()` of utils.py. -/
def cache_pool_obj_path_generate (st : PathAllocState) : String × PathAllocState :=
  obj_path_generate st PathCategory.cachePool

/-- `_hidden_lv_obj_path_generate()` of utils.py. -/
def hidden_lv_obj_path_generate (st : PathAllocState) : String × PathAllocState :=
  obj_path_generate st PathCategory.hiddenLv

/-- `job_obj_path_generate()` of utils.py. -/
def job_obj_path_generate (st : PathAllocState) : String × PathAllocState :=
  obj_path_generate st PathCategory.job

/-- Run a sequence of allocations, recording for each the category, the
returned object path, and the integer the counter produced. -/
def allocTrace (st : PathAllocState) :
    List PathCategory → List (PathCategory × String × Nat)
  | [] => []
  | c :: cs =>
    (c, (obj_path_generate st c).1, st.counters c) ::
      allocTrace (obj_path_generate st c).2 cs

/-- The allocator state after a sequence of allocations. -/
def allocFinal (st : PathAllocState) : List PathCategory → PathAllocState
  | [] => st
  | c :: cs => allocFinal (obj_path_generate st c).2 cs

/-- The integers allocated to one category, in allocation order. -/
def valuesFor (c : PathCategory) (tr : List (PathCategory × String × Nat)) :
    List Nat :=
  tr.filterMap (fun e => if e.1 = c then some e.2.2 else none)

/-- How many allocations of a sequence are for one category. -/
def countCat (c : PathCategory) : List PathCategory → Nat
  | [] => 0
  | c2 :: cs => (if c2 = c then 1 else 0) + countCat c cs

/-- `n` consecutive naturals starting at `a`. -/
def natSeq (a : Nat) : Nat → List Nat
  | 0 => []
  | n + 1 => a :: natSeq (a + 1) n

/-! ### LV object-path classification (utils.py `lv_object_path_method`) -/

/-- The five LV path-generator categories `lv_object_path_method` chooses
between. -/
inductive LvPathKind
  | hiddenLv
  | thinPool
  | vdoPool
  | cachePool
  | lv
  deriving DecidableEq, Repr

/-- Python `needle in hay` on strings: contiguous-substring containment. -/
def listContains (needle : List Char) : List Char → Bool
  | [] => needle.isEmpty
  | c :: rest => needle.isPrefixOf (c :: rest) || listContains needle rest

/-- `lv_object_path_method(name, meta)` of utils.py, `meta` being the pair of
the LV's attribute string and its pool-membership string.  `none` models the
`IndexError` Python raises when the name or attribute string is empty. -/
def lv_object_path_method (name : String) (meta : String × String) :
    Option LvPathKind :=
  match name.data with
  | [] => none
  | c :: _ =>
    if c = '[' then some LvPathKind.hiddenLv
    else
      match meta.1.data with
      | [] => none
      | a :: _ =>
        if a = 't' then some LvPathKind.thinPool
        else if a = 'd' then some LvPathKind.vdoPool
        else if a = 'C' ∧ listContains "pool".data meta.2.data = true then
          some LvPathKind.cachePool
        else some LvPathKind.lv

/-! ### `--config` handling (utils.py `add_config_option` / `add_no_notify`) -/

/-- The element-mutation loop of `add_config_option` once `key` is known to be
in the list: the element after the first occurrence of `key` gets
`" " + value` appended; a `key` with nothing after it raises. -/
def mergeFirst (key value : String) : List String → Except String (List String)
  | [] => Except.error "Missing value for --config option."
  | a :: rest =>
    if a = key then
      match rest with
      | [] => Except.error "Missing value for --config option."
      | b :: rest2 => Except.ok (a :: (b ++ " " ++ value) :: rest2)
    else
      match mergeFirst key value rest with
      | Except.ok l => Except.ok (a :: l)
      | Except.error e => Except.error e

/-- `add_config_option(cmdline, key, value)` of utils.py: a vector containing
`help` is returned unchanged; else if `key` is present its following element
gets the value space-joined in; else `key, value` are appended. -/
def add_config_option (cmdline : List String) (key value : String) :
    Except String (List String) :=
  if "help" ∈ cmdline then Except.ok cmdline
  else if key ∈ cmdline then mergeFirst key value cmdline
  else Except.ok (cmdline ++ [key, value])

/-- `add_no_notify(cmdline)` of utils.py: once an external event has been
observed (`cfg.got_external_event`), add `--config global/notify_dbus=0`;
otherwise return the vector unchanged. -/
def add_no_notify (got_external_event : Bool) (cmdline : List String) :
    Except String (List String) :=
  if got_external_event then
    add_config_option cmdline "--config" "global/notify_dbus=0"
  else Except.ok cmdline

/-! ### Main-thread runner (utils.py `MThreadRunner`) -/

/-- `MThreadRunner` of utils.py: `f` is the one outcome of calling the
wrapped function with its arguments (a value, or the exception it raises);
`rc`, `exception` and `function_complete` mirror the instance attributes. -/
structure MThreadRunner (ε α : Type) where
  f : Except ε α
  rc : Option α
  exception : Option ε
  function_complete : Bool

/-- `MThreadRunner.__init__`: nothing run yet. -/
def MThreadRunner.create (f : Except ε α) : MThreadRunner ε α :=
  ⟨f, none, none, false⟩

/-- `MThreadRunner._run`: call the function, storing its return value in
`rc` or the raised exception in `exception`. -/
def MThreadRunner.runBody (r : MThreadRunner ε α) : MThreadRunner ε α :=
  match r.f with
  | Except.ok v => { r with rc := some v }
  | Except.error e => { r with exception := some e }

/-- `MThreadRunner.runner`, the callback the dispatch thread executes:
`_run`, then mark the function complete (and wake the waiter). -/
def MThreadRunner.runner (r : MThreadRunner ε α) : MThreadRunner ε α :=
  { r.runBody with function_complete := true }

/-- `MThreadRunner.done()`: modelled from the spec — the condition-variable
wait blocks until `function_complete`, so `done` yields no outcome (`none`)
before the runner has executed; afterwards it re-raises the stored exception
or returns `rc`. -/
def MThreadRunner.done (r : MThreadRunner ε α) : Option (Except ε (Option α)) :=
  if r.function_complete then
    some
      (match r.exception with
      | some e => Except.error e
      | none => Except.ok r.rc)
  else none

/-! ## Supporting lemmas -/

/-- An unresolvable destination makes the resolution loop raise. -/
theorem resolve_dests_err (om : List (String × String)) (iface : String) :
    ∀ dests : List (String × Int × Int),
      (∃ d ∈ dests, get_object_by_path om d.1 = none) →
      ∃ e, resolve_dests om iface dests = Except.error e := by
  intro dests
  induction dests with
  | nil => rintro ⟨d, hd, _⟩; cases hd
  | cons p rest ih =>
    rintro ⟨d, hd, hnone⟩
    rw [List.mem_cons] at hd
    cases hp : get_object_by_path om p.1 with
    | none =>
      exact ⟨_, by rw [show p = (p.1, p.2.1, p.2.2) from rfl, resolve_dests, hp]⟩
    | some v =>
      cases hd with
      | inl h => rw [h, hp] at hnone; cases hnone
      | inr h =>
        obtain ⟨e, he⟩ := ih ⟨d, h, hnone⟩
        exact ⟨e, by rw [show p = (p.1, p.2.1, p.2.2) from rfl, resolve_dests, hp, he]⟩

/-- Merging into the element after the first `key` occurrence. -/
theorem mergeFirst_split (key value b : String) (pre suf : List String)
    (hpre : key ∉ pre) :
    mergeFirst key value (pre ++ key :: b :: suf) =
      Except.ok (pre ++ key :: (b ++ " " ++ value) :: suf) := by
  induction pre with
  | nil => simp [mergeFirst]
  | cons a t ih =>
    have ha : ¬(a = key) := fun h => hpre (h ▸ List.mem_cons_self _ _)
    have ht : key ∉ t := fun h => hpre (List.mem_cons_of_mem _ h)
    rw [List.cons_append]
    show (if a = key then _ else _) = _
    rw [if_neg ha, ih ht]
    simp

/-! ## Claims -/

/-- C10: a command line containing `help` is returned unchanged by
`add_config_option`, so `add_no_notify` adds no suppression option to it
even when the external-event condition holds. -/
theorem claim_C10_help (cmdline : List String) (key value : String)
    (got : Bool) (h : "help" ∈ cmdline) :
    add_config_option cmdline key value = Except.ok cmdline ∧
    add_no_notify got cmdline = Except.ok cmdline := by
  have h1 : add_config_option cmdline key value = Except.ok cmdline := by
    simp [add_config_option, h]
  refine ⟨h1, ?_⟩
  cases got
  · simp [add_no_notify]
  · simp [add_no_notify, add_config_option, h]

/-- C10 witness: a concrete command line with `help`. -/
theorem claim_C10_witness :
    add_config_option ["pvmove", "help"] "--config" "x" =
      Except.ok ["pvmove", "help"] ∧
    add_no_notify true ["pvmove", "help"] = Except.ok ["pvmove", "help"] :=
  claim_C10_help ["pvmove", "help"] "--config" "x" true (by decide)

/-- C8 counterexample: with the suppression condition observed and
`--config` absent, the vector `["pvmove", "help"]` is returned unchanged —
nothing is appended, contrary to the claim. -/
theorem claim_C8_counterexample :
    add_no_notify true ["pvmove", "help"] = Except.ok ["pvmove", "help"] ∧
    "--config" ∉ (["pvmove", "help"] : List String) ∧
    add_no_notify true ["pvmove", "help"] ≠
      Except.ok ["pvmove", "help", "--config", "global/notify_dbus=0"] := by
  refine ⟨by decide, by decide, by decide⟩

/-- C8 (amended): when the suppression condition has not been observed the
vector is returned unchanged; when it has been observed: a vector containing
`help` is returned unchanged, otherwise the suppression setting is appended
with `--config` as a new pair when `--config` is absent, and space-joined
into the value following the first `--config` when present. -/
theorem claim_C8_no_notify (got : Bool) (cmdline pre suf : List String)
    (b : String) :
    (got = false → add_no_notify got cmdline = Except.ok cmdline) ∧
    ("help" ∈ cmdline → add_no_notify got cmdline = Except.ok cmdline) ∧
    ("help" ∉ cmdline → "--config" ∉ cmdline →
      add_no_notify true cmdline =
        Except.ok (cmdline ++ ["--config", "global/notify_dbus=0"])) ∧
    ("help" ∉ pre ++ "--config" :: b :: suf → "--config" ∉ pre →
      add_no_notify true (pre ++ "--config" :: b :: suf) =
        Except.ok (pre ++ "--config" :: (b ++ " " ++ "global/notify_dbus=0") :: suf)) := by
  refine ⟨?_, ?_, ?_, ?_⟩
  · intro h; rw [h]; simp [add_no_notify]
  · intro h; cases got <;> simp [add_no_notify, add_config_option, h]
  · intro h1 h2; simp [add_no_notify, add_config_option, h1, h2]
  · intro h1 h2
    have hmem : "--config" ∈ pre ++ "--config" :: b :: suf := by
      simp
    simp only [add_no_notify, if_pos rfl, add_config_option, if_neg h1, if_pos hmem]
    exact mergeFirst_split _ _ _ _ _ h2

/-- C8 witness: concrete runs of the unchanged, help, append and merge
cases. -/
theorem claim_C8_witness :
    add_no_notify false ["pvmove"] = Except.ok ["pvmove"] ∧
    add_no_notify true ["pvmove", "help"] = Except.ok ["pvmove", "help"] ∧
    add_no_notify true ["pvmove"] =
      Except.ok ["pvmove", "--config", "global/notify_dbus=0"] ∧
    add_no_notify true ["lvm", "--config", "a=b", "x"] =
      Except.ok ["lvm", "--config", "a=b global/notify_dbus=0", "x"] :=
  ⟨(claim_C8_no_notify false ["pvmove"] [] [] "").1 rfl,
   (claim_C8_no_notify true ["pvmove", "help"] [] [] "").2.1 (by decide),
   (claim_C8_no_notify true ["pvmove"] [] [] "").2.2.1 (by decide) (by decide),
   (claim_C8_no_notify true [] ["lvm"] ["x"] "a=b").2.2.2 (by decide) (by decide)⟩

/-- C7: the main-thread runner — before the dispatch thread has executed
the queued callback, `done()` yields no outcome (the condition wait blocks);
once `runner` has executed the wrapped function on the dispatch thread,
`done()` returns the function's return value, or re-raises the very
exception the function raised. -/
theorem claim_C7_runner (ε α : Type) (f : Except ε α) :
    MThreadRunner.done (MThreadRunner.create f) = none ∧
    MThreadRunner.done (MThreadRunner.runner (MThreadRunner.create f)) =
      some
        (match f with
        | Except.ok v => Except.ok (some v)
        | Except.error e => Except.error e) := by
  refine ⟨rfl, ?_⟩
  cases f <;> rfl

/-- C6: a nonzero exit code makes `_move_merge` raise a fault whose message
is exactly `Exit code <ec>, stderr = <stderr>` (so it contains the exit code
and the stderr text verbatim), and exactly one completed execution record
carrying that exit code is appended to the Flight Recorder. -/
theorem claim_C6_failure (iface : String) (command : List String)
    (world : LvmCallResult) (job : JobState) (st : DaemonState)
    (h : world.ec ≠ 0) :
    (move_merge iface command world job st).1 =
      Except.error
        ⟨iface, "Exit code " ++ toString world.ec ++ ", stderr = " ++ world.stderr⟩ ∧
    (move_merge iface command world job st).2.2.flightrecorder =
      st.flightrecorder ++ [completedMeta st command world] ∧
    (completedMeta st command world).ec = world.ec := by
  refine ⟨?_, ?_, rfl⟩ <;> simp [move_merge, h]

/-- C6 witness: exit code 1 with stderr `insufficient free space`. -/
theorem claim_C6_witness :
    (move_merge "i" ["lvconvert"] ⟨1, "", "insufficient free space", []⟩
        ⟨0, 0⟩ ⟨[], 0, 0, 0⟩).1 =
      Except.error
        ⟨"i", "Exit code " ++ toString (1 : Int) ++ ", stderr = " ++ "insufficient free space"⟩ ∧
    (move_merge "i" ["lvconvert"] ⟨1, "", "insufficient free space", []⟩
        ⟨0, 0⟩ ⟨[], 0, 0, 0⟩).2.2.flightrecorder =
      [] ++ [completedMeta ⟨[], 0, 0, 0⟩ ["lvconvert"] ⟨1, "", "insufficient free space", []⟩] ∧
    (completedMeta ⟨[], 0, 0, 0⟩ ["lvconvert"] ⟨1, "", "insufficient free space", []⟩).ec =
      (1 : Int) :=
  claim_C6_failure "i" ["lvconvert"] ⟨1, "", "insufficient free space", []⟩
    ⟨0, 0⟩ ⟨[], 0, 0, 0⟩ (by decide)

/-- C5: when the source PV object path, or any destination PV object path,
does not resolve in the object graph, `move` raises a fault and leaves the
job and the daemon state — Flight Recorder included — untouched: no
external process is spawned. -/
theorem claim_C5_unresolved (iface : String) (lv_name : Option String)
    (src : String) (rng : Int × Int) (dests : List (String × Int × Int))
    (opts : List String) (world : LvmCallResult) (om : List (String × String))
    (job : JobState) (st : DaemonState)
    (h : get_object_by_path om src = none ∨
      ∃ d ∈ dests, get_object_by_path om d.1 = none) :
    isErr (move iface lv_name src rng dests opts world om job st).1 = true ∧
    (move iface lv_name src rng dests opts world om job st).2.1 = job ∧
    (move iface lv_name src rng dests opts world om job st).2.2 = st := by
  cases hsrc : get_object_by_path om src with
  | none => simp [move, hsrc, isErr]
  | some v =>
    cases h with
    | inl h0 => rw [h0] at hsrc; cases hsrc
    | inr h0 =>
      obtain ⟨e, he⟩ := resolve_dests_err om iface dests h0
      simp [move, hsrc, he, isErr]

/-- C5 witness: an empty object graph resolves nothing; the fault is raised
with job and daemon state unchanged. -/
theorem claim_C5_witness :
    isErr (move "i" none "/p" (0, 0) [] [] ⟨0, "", "", []⟩ [] ⟨0, 0⟩
      ⟨[], 0, 0, 0⟩).1 = true ∧
    (move "i" none "/p" (0, 0) [] [] ⟨0, "", "", []⟩ [] ⟨0, 0⟩
      ⟨[], 0, 0, 0⟩).2.1 = (⟨0, 0⟩ : JobState) ∧
    (move "i" none "/p" (0, 0) [] [] ⟨0, "", "", []⟩ [] ⟨0, 0⟩
      ⟨[], 0, 0, 0⟩).2.2 = (⟨[], 0, 0, 0⟩ : DaemonState) :=
  claim_C5_unresolved "i" none "/p" (0, 0) [] [] ⟨0, "", "", []⟩ [] ⟨0, 0⟩
    ⟨[], 0, 0, 0⟩ (Or.inl rfl)

/-- `lv_object_path_method` written as one selection over the classification
signals. -/
theorem lv_object_path_method_eq (name : String) (meta : String × String)
    (c a : Char) (cs as : List Char)
    (hcn : name.data = c :: cs) (han : meta.1.data = a :: as) :
    lv_object_path_method name meta =
      some
        (if c = '[' then LvPathKind.hiddenLv
        else if a = 't' then LvPathKind.thinPool
        else if a = 'd' then LvPathKind.vdoPool
        else if a = 'C' ∧ listContains "pool".data meta.2.data = true then
          LvPathKind.cachePool
        else LvPathKind.lv) := by
  simp only [lv_object_path_method, hcn, han]
  split_ifs <;> rfl

/-- C3: classification of an LV name and attribute metadata is total and
deterministic — every LV (nonempty name, nonempty attribute string) is
assigned exactly one of the five path-generator categories — and the
precedence hidden-name-prefix > thin-pool code `t` > vdo code `d` >
cache-pool (code `C` and pool membership) > default decides the result
whenever several signals are present. -/
theorem claim_C3_classification (name attr poolinfo : String)
    (hn : name.data ≠ []) (ha : attr.data ≠ []) :
    (∃ k, lv_object_path_method name (attr, poolinfo) = some k) ∧
    (name.data.head? = some '[' →
      lv_object_path_method name (attr, poolinfo) = some LvPathKind.hiddenLv) ∧
    (name.data.head? ≠ some '[' → attr.data.head? = some 't' →
      lv_object_path_method name (attr, poolinfo) = some LvPathKind.thinPool) ∧
    (name.data.head? ≠ some '[' → attr.data.head? ≠ some 't' →
      attr.data.head? = some 'd' →
      lv_object_path_method name (attr, poolinfo) = some LvPathKind.vdoPool) ∧
    (name.data.head? ≠ some '[' → attr.data.head? ≠ some 't' →
      attr.data.head? ≠ some 'd' → attr.data.head? = some 'C' →
      listContains "pool".data poolinfo.data = true →
      lv_object_path_method name (attr, poolinfo) = some LvPathKind.cachePool) ∧
    (name.data.head? ≠ some '[' → attr.data.head? ≠ some 't' →
      attr.data.head? ≠ some 'd' →
      ¬(attr.data.head? = some 'C' ∧ listContains "pool".data poolinfo.data = true) →
      lv_object_path_method name (attr, poolinfo) = some LvPathKind.lv) := by
  obtain ⟨c, cs, hcn⟩ : ∃ c cs, name.data = c :: cs := by
    cases h : name.data with
    | nil => exact absurd h hn
    | cons c cs => exact ⟨c, cs, rfl⟩
  obtain ⟨a, as, han⟩ : ∃ a as, attr.data = a :: as := by
    cases h : attr.data with
    | nil => exact absurd h ha
    | cons a as => exact ⟨a, as, rfl⟩
  have key := lv_object_path_method_eq name (attr, poolinfo) c a cs as hcn han
  rw [hcn, han, List.head?_cons, List.head?_cons]
  refine ⟨⟨_, key⟩, ?_, ?_, ?_, ?_, ?_⟩
  · intro h1
    have hc : c = '[' := by injection h1
    rw [key, if_pos hc]
  · intro h1 h2
    have hc : ¬(c = '[') := fun h => h1 (by rw [h])
    have ha2 : a = 't' := by injection h2
    rw [key, if_neg hc, if_pos ha2]
  · intro h1 h2 h3
    have hc : ¬(c = '[') := fun h => h1 (by rw [h])
    have ht : ¬(a = 't') := fun h => h2 (by rw [h])
    have hd : a = 'd' := by injection h3
    rw [key, if_neg hc, if_neg ht, if_pos hd]
  · intro h1 h2 h3 h4 h5
    have hc : ¬(c = '[') := fun h => h1 (by rw [h])
    have ht : ¬(a = 't') := fun h => h2 (by rw [h])
    have hd : ¬(a = 'd') := fun h => h3 (by rw [h])
    have hC : a = 'C' := by injection h4
    rw [key, if_neg hc, if_neg ht, if_neg hd, if_pos ⟨hC, h5⟩]
  · intro h1 h2 h3 h4
    have hc : ¬(c = '[') := fun h => h1 (by rw [h])
    have ht : ¬(a = 't') := fun h => h2 (by rw [h])
    have hd : ¬(a = 'd') := fun h => h3 (by rw [h])
    have hCp : ¬(a = 'C' ∧ listContains "pool".data poolinfo.data = true) := by
      intro hx
      exact h4 ⟨by rw [hx.1], hx.2⟩
    rw [key, if_neg hc, if_neg ht, if_neg hd, if_neg hCp]

/-- C3 witness: a hidden name wins over a thin-pool attribute code. -/
theorem claim_C3_witness :
    lv_object_path_method "[lvol0_pmspare]" ("twi-a", "pool") =
      some LvPathKind.hiddenLv :=
  (claim_C3_classification "[lvol0_pmspare]" "twi-a" "pool" (by decide)
    (by decide)).2.1 (by decide)

/-- Every element of `natSeq a n` is at least `a`. -/
theorem natSeq_le_mem : ∀ (n a x : Nat), x ∈ natSeq a n → a ≤ x := by
  intro n
  induction n with
  | zero => intro a x hx; cases hx
  | succ m ih =>
    intro a x hx
    rw [natSeq, List.mem_cons] at hx
    cases hx with
    | inl h => exact le_of_eq h.symm
    | inr h => exact le_of_lt (Nat.lt_of_lt_of_le (Nat.lt_succ_self a) (ih (a + 1) x h))

/-- Consecutive naturals are strictly increasing. -/
theorem natSeq_pairwise : ∀ n a : Nat, List.Pairwise (· < ·) (natSeq a n) := by
  intro n
  induction n with
  | zero => intro a; exact List.Pairwise.nil
  | succ m ih =>
    intro a
    rw [natSeq]
    exact List.pairwise_cons.2
      ⟨fun x hx => Nat.lt_of_lt_of_le (Nat.lt_succ_self a) (natSeq_le_mem m (a + 1) x hx),
        ih (a + 1)⟩

/-- The integers one category receives across an allocation run are exactly
the consecutive block starting at its counter. -/
theorem valuesFor_allocTrace (c : PathCategory) :
    ∀ (seq : List PathCategory) (st : PathAllocState),
      valuesFor c (allocTrace st seq) = natSeq (st.counters c) (countCat c seq) := by
  intro seq
  induction seq with
  | nil => intro st; rfl
  | cons c2 cs ih =>
    intro st
    rw [allocTrace, countCat]
    by_cases h : c2 = c
    · subst h
      have hb : (obj_path_generate st c2).2.counters c2 = st.counters c2 + 1 := by
        simp [obj_path_generate, bumpCounter]
      have hrec := ih (obj_path_generate st c2).2
      rw [hb] at hrec
      rw [if_pos (rfl : c2 = c2), Nat.add_comm 1 (countCat c2 cs), natSeq, ← hrec]
      simp [valuesFor, List.filterMap_cons]
    · rw [valuesFor, List.filterMap_cons]
      simp only [if_neg h, Nat.zero_add]
      have hb : (obj_path_generate st c2).2.counters c = st.counters c := by
        simp only [obj_path_generate, bumpCounter]
        exact if_neg (fun hx => h hx.symm)
      have := ih (obj_path_generate st c2).2
      rw [valuesFor] at this
      rw [this, hb]

/-- A counter never decreases across an allocation run. -/
theorem counters_le_allocFinal (c : PathCategory) :
    ∀ (seq : List PathCategory) (st : PathAllocState),
      st.counters c ≤ (allocFinal st seq).counters c := by
  intro seq
  induction seq with
  | nil => intro st; exact Nat.le_refl _
  | cons c2 cs ih =>
    intro st
    rw [allocFinal]
    refine Nat.le_trans ?_ (ih (obj_path_generate st c2).2)
    simp only [obj_path_generate, bumpCounter]
    by_cases h : c = c2
    · rw [if_pos h]; exact Nat.le_succ _
    · rw [if_neg h]

/-- C4: across any interleaved sequence of object-path allocations, the
integers any one category receives are strictly increasing and never repeat;
every returned path is its category's fixed prefix, a slash and that
integer; and no category's counter ever decreases. -/
theorem claim_C4_allocator (st : PathAllocState) (seq : List PathCategory)
    (c : PathCategory) :
    List.Pairwise (· < ·) (valuesFor c (allocTrace st seq)) ∧
    (allocTrace st seq).map (fun e => e.2.1) =
      (allocTrace st seq).map (fun e => prefixOf e.1 ++ "/" ++ toString e.2.2) ∧
    st.counters c ≤ (allocFinal st seq).counters c := by
  refine ⟨?_, ?_, counters_le_allocFinal c seq st⟩
  · rw [valuesFor_allocTrace]
    exact natSeq_pairwise _ _
  · clear c
    induction seq generalizing st with
    | nil => rfl
    | cons c2 cs ih =>
      rw [allocTrace, List.map_cons, List.map_cons, ih]
      rfl

end LvmDbus
